import Mathlib

/-!
Shallow embedding of the CountdownOvertimer application (src/main.cpp),
a Qt negative-countdown timer.  The C++ class `TimerApp` is modelled as a
state record `St` together with pure transition functions for each slot
(`resetTimer`, `onStartPauseClicked`, `onTick`), the config parser
(`loadConfig` over the list of physical lines of config.txt), the sound
helper (`playSound` → `soundAction`), and the font-scaling rule of
`resizeEvent` (`fontPointSize`).  Qt-level facts used by the model:
a stopped `QTimer` delivers no timeout events, and a hidden button
delivers no clicked events; both appear as guards in `step` /
`clickStartPause`.  Emitted observable effects (display updates and the
two sound events) are returned as lists of `Ev`.
-/

/-- Two's-complement wrap of an integer into the signed 32-bit range,
modelling C++ `int` arithmetic in `resetTimer` (the fields `startMin`,
`startSec`, `limitMin`, `limitSec` are `int`, so the products are computed
in 32-bit before being stored into the `qint64` state fields). -/
def wrap32 (n : Int) : Int := (n + 2 ^ 31) % 2 ^ 32 - 2 ^ 31

/-- Addition wrapped to 32-bit signed, as in C++ `int + int`. -/
def i32add (a b : Int) : Int := wrap32 (a + b)

/-- Multiplication wrapped to 32-bit signed, as in C++ `int * int`. -/
def i32mul (a b : Int) : Int := wrap32 (a * b)

/-- The proposition that `n` lies strictly inside the symmetric 32-bit
range, so that 32-bit arithmetic on it (and on its negation) is exact. -/
def FitsI32 (n : Int) : Prop := -2 ^ 31 < n ∧ n < 2 ^ 31

instance (n : Int) : Decidable (FitsI32 n) := by
  unfold FitsI32; infer_instance

/-- The parsed configuration; field defaults are the C++ member
initializers (`startMin = 0`, `startSec = 10`, `limitMin = 0`,
`limitSec = 10`, empty sound paths). -/
structure Config where
  startMin : Int := 0
  startSec : Int := 10
  limitMin : Int := 0
  limitSec : Int := 10
  soundZeroFile : String := ""
  soundLimitFile : String := ""
deriving Repr, DecidableEq

/-- Whitespace trim of a character list (leading and trailing), the
effect of `QString::trimmed`. -/
def trimChars (l : List Char) : List Char :=
  ((l.dropWhile Char.isWhitespace).reverse.dropWhile Char.isWhitespace).reverse

/-- Model of `line.split('#')[0].trimmed()`: everything from the first `#` onward
is discarded (the prefix before the first `#` is exactly what
`split('#')[0]` returns, also when no `#` occurs), then surrounding
whitespace is trimmed. -/
def cleanLine (l : String) : String :=
  String.mk (trimChars (l.toList.takeWhile (fun c => c ≠ '#')))

/-- The meaningful lines of a file: each physical line cleaned, empty
results skipped. -/
def meaningfulLines (ls : List String) : List String :=
  (ls.map cleanLine).filter (fun l => l ≠ "")

/-- The `readValidLine` lambda of `loadConfig`: consume physical lines
until a non-empty cleaned line appears; return it together with the
unconsumed suffix, or `("", [])` at end of input (a null `QString`). -/
def readValidLine : List String → String × List String
  | [] => ("", [])
  | l :: rest =>
    if cleanLine l ≠ "" then (cleanLine l, rest) else readValidLine rest

/-- Value of a run of decimal digits, `none` if empty or non-digit. -/
def digitsVal (l : List Char) : Option Nat :=
  if l ≠ [] ∧ l.all Char.isDigit then
    some (l.foldl (fun a c => a * 10 + (c.toNat - 48)) 0)
  else none

/-- Model of `QString::toInt` (base 10): an optional sign followed by digits,
value required to fit in a 32-bit `int`; every failure yields 0. -/
def toIntQ (s : String) : Int :=
  let p : Int × List Char :=
    match s.toList with
    | '-' :: r => (-1, r)
    | '+' :: r => (1, r)
    | r => (1, r)
  match digitsVal p.2 with
  | some n =>
    if -2 ^ 31 ≤ p.1 * n ∧ p.1 * n < 2 ^ 31 then p.1 * n else 0
  | none => 0

/-- Model of `TimerApp::loadConfig` applied to the physical lines of config.txt:
six sequential `readValidLine` calls feeding the six fields. -/
def loadConfig (ls : List String) : Config :=
  let p1 := readValidLine ls
  let p2 := readValidLine p1.2
  let p3 := readValidLine p2.2
  let p4 := readValidLine p3.2
  let p5 := readValidLine p4.2
  let p6 := readValidLine p5.2
  { startMin := toIntQ p1.1
    startSec := toIntQ p2.1
    limitMin := toIntQ p3.1
    limitSec := toIntQ p4.1
    soundZeroFile := p5.1
    soundLimitFile := p6.1 }

/-- The mutable state of `TimerApp`: the timing fields, the flag
triple, the `QTimer` activity, the Start/Pause button label and
visibility, and whether the `QMediaPlayer` is playing a clip. -/
structure St where
  currentMs : Int
  limitMs : Int
  targetEndTime : Int
  isRunning : Bool
  isPaused : Bool
  zeroSoundPlayed : Bool
  timerActive : Bool
  btnText : String
  btnVisible : Bool
  playerPlaying : Bool
deriving Repr, DecidableEq

/-- An arbitrary pre-constructor state (the constructor immediately runs
`loadConfig`/`setupUI`/`resetTimer`, which overwrite every field used). -/
def st0 : St :=
  { currentMs := 0, limitMs := 0, targetEndTime := 0, isRunning := false
    isPaused := false, zeroSoundPlayed := false, timerActive := false
    btnText := "", btnVisible := true, playerPlaying := false }

/-- What `TimerApp::playSound` does with a file name, given the
file-system predicate `fs` (`fs n = true` iff `n` names an existing
regular file): empty name → return silently; existing regular file →
play it; otherwise → `QApplication::beep()`. -/
inductive SndAct where
  | silent
  | beep
  | playFile (p : String)
deriving Repr, DecidableEq

/-- The audible action of `playSound fileName`. -/
def soundAction (fs : String → Bool) (n : String) : SndAct :=
  if n = "" then SndAct.silent
  else if fs n then SndAct.playFile n
  else SndAct.beep

/-- The `QMediaPlayer` playing-state after `playSound fileName`
(`player->play()` runs only in the existing-file branch). -/
def playerAfter (fs : String → Bool) (n : String) (cur : Bool) : Bool :=
  match soundAction fs n with
  | SndAct.playFile _ => true
  | _ => cur

/-- Observable events: a display update (`updateDisplay`), the
zero-crossing sound request (`playSound(soundZeroFile)`), and the
limit-reached sound request (`playSound(soundLimitFile)`). -/
inductive Ev where
  | displayChanged
  | zeroCross
  | limitReach
deriving Repr, DecidableEq

/-- Slot `TimerApp::resetTimer`: stop the tick timer, stop the media player,
clear the three flags, recompute `currentMs` and `limitMs` from the
config with C++ `int` arithmetic, relabel and show the Start button. -/
def resetTimer (c : Config) (s : St) : St :=
  { s with
    timerActive := false
    playerPlaying := false
    isRunning := false
    isPaused := false
    zeroSoundPlayed := false
    currentMs := i32mul (i32add (i32mul c.startMin 60) c.startSec) 1000
    limitMs := i32mul (i32mul (-1) (i32add (i32mul c.limitMin 60) c.limitSec)) 1000
    btnText := "Start"
    btnVisible := true }

/-- The state right after construction: the constructor ends in
`resetTimer`, and `resetTimer` overwrites every field it reads. -/
def mkInit (c : Config) : St := resetTimer c st0

/-- Slot `TimerApp::onStartPauseClicked`: not running → start (recompute
`targetEndTime = now + currentMs`, start the tick timer); running →
pause (stop the tick timer).  There is no Ended-state guard in the
slot itself. -/
def onStartPauseClicked (now : Int) (s : St) : St :=
  if s.isRunning = false then
    { s with
      isRunning := true, isPaused := false, btnText := "Pause"
      targetEndTime := now + s.currentMs, timerActive := true }
  else
    { s with
      isRunning := false, isPaused := true, btnText := "Start"
      timerActive := false }

/-- Slot `TimerApp::onTick`: recompute `currentMs` from the wall clock, update
the display, then the zero edge (latched), then the limit edge (clamp,
second display update, limit sound, stop). -/
def onTick (fs : String → Bool) (c : Config) (now : Int) (s : St) :
    St × List Ev :=
  let s1 := { s with currentMs := s.targetEndTime - now }
  let p :=
    if s1.currentMs ≤ 0 ∧ s1.zeroSoundPlayed = false then
      ({ s1 with
          playerPlaying := playerAfter fs c.soundZeroFile s1.playerPlaying
          zeroSoundPlayed := true },
       [Ev.displayChanged, Ev.zeroCross])
    else (s1, [Ev.displayChanged])
  if p.1.currentMs ≤ p.1.limitMs then
    ({ p.1 with
        currentMs := p.1.limitMs
        playerPlaying := playerAfter fs c.soundLimitFile p.1.playerPlaying
        timerActive := false, isRunning := false, isPaused := true
        btnVisible := false },
     p.2 ++ [Ev.displayChanged, Ev.limitReach])
  else p

/-- A user click on the Start/Pause button: a hidden Qt button emits no
`clicked` signal, so the slot runs only while the button is visible. -/
def clickStartPause (now : Int) (s : St) : St :=
  if s.btnVisible then onStartPauseClicked now s else s

/-- The engine phases of the specification, derived from the concrete
flags: `isRunning` ⇒ Running; otherwise a hidden Start/Pause button
(which only the limit edge causes) ⇒ Ended; otherwise `isPaused`
distinguishes Paused from Idle. -/
inductive Phase where
  | Idle
  | Running
  | Paused
  | Ended
deriving Repr, DecidableEq

/-- Derived phase of a state. -/
def phase (s : St) : Phase :=
  if s.isRunning then Phase.Running
  else if s.isPaused then
    (if s.btnVisible then Phase.Paused else Phase.Ended)
  else Phase.Idle

/-- The event sources of the application loop: a `QTimer` timeout, a
click on Start/Pause, a click on Reset. -/
inductive Op where
  | tick (now : Int)
  | startPause (now : Int)
  | reset
deriving Repr, DecidableEq

/-- One event-loop dispatch: a timeout is delivered only while the
`QTimer` is active; a Start/Pause click only while the button is
visible; Reset is always available. -/
def step (fs : String → Bool) (c : Config) : Op → St → St × List Ev
  | Op.tick now, s => if s.timerActive then onTick fs c now s else (s, [])
  | Op.startPause now, s => (clickStartPause now s, [])
  | Op.reset, s => (resetTimer c s, [])

/-- Run a sequence of event-loop dispatches. -/
def runOps (fs : String → Bool) (c : Config) : List Op → St → St
  | [], s => s
  | o :: os, s => runOps fs c os (step fs c o s).1

/-- The concatenated events of a sequence of dispatches. -/
def evRun (fs : String → Bool) (c : Config) : List Op → St → List Ev
  | [], _ => []
  | o :: os, s => (step fs c o s).2 ++ evRun fs c os (step fs c o s).1

/-- Font rule of `TimerApp::resizeEvent`: `(int)(h * 0.50)` is `h / 2` and
`(int)(w / 4.5)` is `2 * w / 9` (widget sizes are non-negative ints, and
for every such value the double computations `h * 0.50` and `w / 4.5`
truncate to exactly these integers, since `2w/9` is never within a
rounding error of a different integer); the minimum of the two is
clamped below at 20. -/
def fontPointSize (w h : Nat) : Nat :=
  let sizeByHeight := h / 2
  let sizeByWidth := 2 * w / 9
  let newPointSize := min sizeByHeight sizeByWidth
  if newPointSize < 20 then 20 else newPointSize

/-! ### Basic lemmas about the transition functions -/

theorem wrap32_eq_self {n : Int} (h1 : -2 ^ 31 ≤ n) (h2 : n < 2 ^ 31) :
    wrap32 n = n := by
  unfold wrap32; omega

theorem onTick_currentMs (fs : String → Bool) (c : Config) (now : Int) (s : St) :
    (onTick fs c now s).1.currentMs =
      (if s.targetEndTime - now ≤ s.limitMs then s.limitMs
       else s.targetEndTime - now) := by
  unfold onTick
  dsimp only
  split <;> dsimp only <;> split <;> rfl

theorem onTick_limitMs (fs : String → Bool) (c : Config) (now : Int) (s : St) :
    (onTick fs c now s).1.limitMs = s.limitMs := by
  unfold onTick
  dsimp only
  split <;> dsimp only <;> split <;> rfl

theorem onTick_targetEndTime (fs : String → Bool) (c : Config) (now : Int)
    (s : St) :
    (onTick fs c now s).1.targetEndTime = s.targetEndTime := by
  unfold onTick
  dsimp only
  split <;> dsimp only <;> split <;> rfl

theorem onTick_zeroSoundPlayed (fs : String → Bool) (c : Config) (now : Int)
    (s : St) :
    (onTick fs c now s).1.zeroSoundPlayed =
      (s.zeroSoundPlayed || decide (s.targetEndTime - now ≤ 0)) := by
  unfold onTick
  dsimp only
  split <;> dsimp only <;> split <;> rename_i h1 h2 <;> dsimp only
  · simp [h1.1, h1.2]
  · simp [h1.1, h1.2]
  · rcases Bool.eq_false_or_eq_true s.zeroSoundPlayed with hb | hb
    · simp [hb]
    · simp [hb] at h1 ⊢
      omega
  · rcases Bool.eq_false_or_eq_true s.zeroSoundPlayed with hb | hb
    · simp [hb]
    · simp [hb] at h1 ⊢
      omega

theorem onTick_timerActive (fs : String → Bool) (c : Config) (now : Int)
    (s : St) :
    (onTick fs c now s).1.timerActive =
      (if s.targetEndTime - now ≤ s.limitMs then false else s.timerActive) := by
  unfold onTick
  dsimp only
  split <;> dsimp only <;> split <;> rfl

theorem onTick_isRunning (fs : String → Bool) (c : Config) (now : Int)
    (s : St) :
    (onTick fs c now s).1.isRunning =
      (if s.targetEndTime - now ≤ s.limitMs then false else s.isRunning) := by
  unfold onTick
  dsimp only
  split <;> dsimp only <;> split <;> rfl

theorem onTick_events (fs : String → Bool) (c : Config) (now : Int) (s : St) :
    (onTick fs c now s).2 =
      [Ev.displayChanged]
        ++ (if s.targetEndTime - now ≤ 0 ∧ s.zeroSoundPlayed = false then
              [Ev.zeroCross] else [])
        ++ (if s.targetEndTime - now ≤ s.limitMs then
              [Ev.displayChanged, Ev.limitReach] else []) := by
  unfold onTick
  dsimp only
  split <;> dsimp only <;> split <;> rfl

theorem onStartPauseClicked_currentMs (now : Int) (s : St) :
    (onStartPauseClicked now s).currentMs = s.currentMs := by
  unfold onStartPauseClicked; split <;> rfl

theorem onStartPauseClicked_limitMs (now : Int) (s : St) :
    (onStartPauseClicked now s).limitMs = s.limitMs := by
  unfold onStartPauseClicked; split <;> rfl

theorem onStartPauseClicked_zeroSoundPlayed (now : Int) (s : St) :
    (onStartPauseClicked now s).zeroSoundPlayed = s.zeroSoundPlayed := by
  unfold onStartPauseClicked; split <;> rfl

theorem clickStartPause_currentMs (now : Int) (s : St) :
    (clickStartPause now s).currentMs = s.currentMs := by
  unfold clickStartPause
  split
  · exact onStartPauseClicked_currentMs now s
  · rfl

theorem clickStartPause_limitMs (now : Int) (s : St) :
    (clickStartPause now s).limitMs = s.limitMs := by
  unfold clickStartPause
  split
  · exact onStartPauseClicked_limitMs now s
  · rfl

theorem clickStartPause_zeroSoundPlayed (now : Int) (s : St) :
    (clickStartPause now s).zeroSoundPlayed = s.zeroSoundPlayed := by
  unfold clickStartPause
  split
  · exact onStartPauseClicked_zeroSoundPlayed now s
  · rfl

theorem resetTimer_limitMs_eq_mkInit (c : Config) (s : St) :
    (resetTimer c s).limitMs = (mkInit c).limitMs := rfl

theorem step_limitMs_or (fs : String → Bool) (c : Config) (o : Op) (s : St) :
    (step fs c o s).1.limitMs = s.limitMs ∨
      (step fs c o s).1.limitMs = (mkInit c).limitMs := by
  cases o with
  | tick now =>
    by_cases ht : s.timerActive
    · left; simp only [step, ht, if_true]; exact onTick_limitMs fs c now s
    · left; simp [step, ht]
  | startPause now => left; exact clickStartPause_limitMs now s
  | reset => right; exact resetTimer_limitMs_eq_mkInit c s

theorem runOps_limitMs (fs : String → Bool) (c : Config) :
    ∀ (ops : List Op) (s : St), s.limitMs = (mkInit c).limitMs →
      (runOps fs c ops s).limitMs = (mkInit c).limitMs := by
  intro ops
  induction ops with
  | nil => intro s h; exact h
  | cons o os ih =>
    intro s h
    show (runOps fs c os (step fs c o s).1).limitMs = (mkInit c).limitMs
    apply ih
    rcases step_limitMs_or fs c o s with h1 | h1
    · rw [h1]; exact h
    · exact h1

/-- Potential used to bound the number of zero-crossing events in a
reset-free run: 1 while the latch is clear, 0 once it is set. -/
def zeroPot (s : St) : Nat := if s.zeroSoundPlayed then 0 else 1

theorem step_zeroCount (fs : String → Bool) (c : Config) (o : Op) (s : St)
    (ho : o ≠ Op.reset) :
    ((step fs c o s).2.count Ev.zeroCross) + zeroPot (step fs c o s).1 ≤
      zeroPot s := by
  cases o with
  | tick now =>
    by_cases ht : s.timerActive
    · simp only [step, ht, if_true]
      have he := onTick_events fs c now s
      have hz := onTick_zeroSoundPlayed fs c now s
      rw [he]; unfold zeroPot; rw [hz]
      by_cases h1 : s.targetEndTime - now ≤ 0 ∧ s.zeroSoundPlayed = false
      · obtain ⟨h1a, h1b⟩ := h1
        by_cases h2 : s.targetEndTime - now ≤ s.limitMs <;>
          simp [h1a, h1b, h2, List.count_append, List.count_cons]
      · have c1 : List.count Ev.zeroCross [Ev.zeroCross] = 1 := rfl
        have c0 : List.count Ev.zeroCross ([] : List Ev) = 0 := rfl
        rcases Bool.eq_false_or_eq_true s.zeroSoundPlayed with hb | hb <;>
          by_cases h2 : s.targetEndTime - now ≤ s.limitMs <;>
            simp [h1, h2, hb, c1, c0, List.count_append, List.count_cons] <;>
              (try split) <;> omega
    · simp [step, ht]
  | startPause now =>
    simp only [step]
    unfold zeroPot
    rw [clickStartPause_zeroSoundPlayed]
    simp
  | reset => exact absurd rfl ho

theorem evRun_zeroCount (fs : String → Bool) (c : Config) :
    ∀ (ops : List Op) (s : St), (∀ o ∈ ops, o ≠ Op.reset) →
      (evRun fs c ops s).count Ev.zeroCross +
          zeroPot (runOps fs c ops s) ≤ zeroPot s := by
  intro ops
  induction ops with
  | nil =>
    intro s _
    simp [evRun, runOps]
  | cons o os ih =>
    intro s hno
    have ho : o ≠ Op.reset := hno o (List.mem_cons_self o os)
    have hos : ∀ o2 ∈ os, o2 ≠ Op.reset := fun o2 h2 =>
      hno o2 (List.mem_cons_of_mem o h2)
    show ((step fs c o s).2 ++ evRun fs c os (step fs c o s).1).count
          Ev.zeroCross + zeroPot (runOps fs c os (step fs c o s).1) ≤ zeroPot s
    rw [List.count_append]
    have h1 := step_zeroCount fs c o s ho
    have h2 := ih (step fs c o s).1 hos
    omega

theorem zeroPot_eq_zero {s : St} (h : zeroPot s = 0) :
    s.zeroSoundPlayed = true := by
  unfold zeroPot at h
  rcases Bool.eq_false_or_eq_true s.zeroSoundPlayed with hb | hb <;>
    simp [hb] at h ⊢

/-! ### Lemmas about the config reader -/

theorem readValidLine_head :
    ∀ ls : List String,
      (readValidLine ls).1 = (meaningfulLines ls).headD "" := by
  intro ls
  induction ls with
  | nil => rfl
  | cons l rest ih =>
    by_cases h : cleanLine l = ""
    · simpa [readValidLine, meaningfulLines, h] using ih
    · simp [readValidLine, meaningfulLines, h]

theorem readValidLine_tail :
    ∀ ls : List String,
      meaningfulLines (readValidLine ls).2 = (meaningfulLines ls).tail := by
  intro ls
  induction ls with
  | nil => rfl
  | cons l rest ih =>
    by_cases h : cleanLine l = ""
    · simpa [readValidLine, meaningfulLines, h] using ih
    · simp [readValidLine, meaningfulLines, h]

theorem getD_succ (l : List String) (i : Nat) :
    l.getD (i + 1) "" = l.tail.getD i "" := by
  cases l <;> simp [List.getD]

theorem getD_zero (l : List String) : l.getD 0 "" = l.headD "" := by
  cases l <;> simp [List.getD]

/-! ### Claim theorems -/

/-- C1: on every tick the engine recomputes `currentMs` as
`targetEndTime − now` and evaluates the two edges in order: a display
update is always emitted first; if `currentMs ≤ 0` with the zero latch
clear, the latch is set and the zero-crossing event fires; if
`currentMs ≤ limitMs`, `currentMs` is clamped to `limitMs`, a second
display update and the limit-reached event fire, and ticking stops.
When both conditions hold in one tick, both events fire, zero first and
limit last. -/
theorem onTick_recompute_and_edge_order (fs : String → Bool) (c : Config)
    (now : Int) (s : St) :
    (onTick fs c now s).2 =
        [Ev.displayChanged]
          ++ (if s.targetEndTime - now ≤ 0 ∧ s.zeroSoundPlayed = false then
                [Ev.zeroCross] else [])
          ++ (if s.targetEndTime - now ≤ s.limitMs then
                [Ev.displayChanged, Ev.limitReach] else [])
      ∧ (onTick fs c now s).1.currentMs =
          (if s.targetEndTime - now ≤ s.limitMs then s.limitMs
           else s.targetEndTime - now)
      ∧ (onTick fs c now s).1.zeroSoundPlayed =
          (s.zeroSoundPlayed || decide (s.targetEndTime - now ≤ 0))
      ∧ (onTick fs c now s).1.timerActive =
          (if s.targetEndTime - now ≤ s.limitMs then false else s.timerActive)
      ∧ (s.targetEndTime - now ≤ 0 → s.zeroSoundPlayed = false →
          s.targetEndTime - now ≤ s.limitMs →
          (onTick fs c now s).2 =
            [Ev.displayChanged, Ev.zeroCross, Ev.displayChanged,
              Ev.limitReach]) := by
  refine ⟨onTick_events fs c now s, onTick_currentMs fs c now s,
    onTick_zeroSoundPlayed fs c now s, onTick_timerActive fs c now s, ?_⟩
  intro h1 h2 h3
  rw [onTick_events fs c now s]
  simp [h1, h2, h3]

/-- Witness for C1 at a concrete both-edges tick
(`targetEndTime = 0`, `now = 5`, `limitMs = −5`, latch clear). -/
theorem onTick_recompute_and_edge_order_witness :
    (onTick (fun _ => false) {} 5
        { currentMs := 0, limitMs := -5, targetEndTime := 0
          isRunning := true, isPaused := false, zeroSoundPlayed := false
          timerActive := true, btnText := "Pause", btnVisible := true
          playerPlaying := false }).2 =
      [Ev.displayChanged, Ev.zeroCross, Ev.displayChanged, Ev.limitReach] :=
  (onTick_recompute_and_edge_order (fun _ => false) {} 5
      { currentMs := 0, limitMs := -5, targetEndTime := 0
        isRunning := true, isPaused := false, zeroSoundPlayed := false
        timerActive := true, btnText := "Pause", btnVisible := true
        playerPlaying := false }).2.2.2.2 (by decide) rfl (by decide)

/-- C2 counterexample: `playSound` with an empty path returns without
emitting anything — in particular it does not beep, contrary to the
claim that an empty path also produces a system beep. -/
theorem playSound_empty_is_silent :
    soundAction (fun _ => false) "" = SndAct.silent ∧
      soundAction (fun _ => false) "" ≠ SndAct.beep := by
  constructor <;> decide

/-- C2 amended: `playSound` with an empty path returns successfully but
silently (no beep); with a non-empty path that does not name an existing
regular file it emits a system beep and returns successfully; with an
existing regular file it plays the clip. -/
theorem playSound_fallback (fs : String → Bool) (n : String) :
    (n = "" → soundAction fs n = SndAct.silent)
      ∧ (n ≠ "" → fs n = false → soundAction fs n = SndAct.beep)
      ∧ (n ≠ "" → fs n = true → soundAction fs n = SndAct.playFile n) :=
  ⟨fun h => by simp [soundAction, h],
    fun h hf => by simp [soundAction, h, hf],
    fun h hf => by simp [soundAction, h, hf]⟩

/-- Witness for C2's amended claim: a configured-but-missing file name
produces the system beep. -/
theorem playSound_fallback_witness :
    soundAction (fun _ => false) "missing.wav" = SndAct.beep :=
  (playSound_fallback (fun _ => false) "missing.wav").2.1 (by decide) rfl

/-- C3: `onStartPauseClicked` never changes `currentMs` (so a pause
freezes it at the last tick value); invoked while running it pauses and
stops the tick source; invoked while not running it resumes with
`targetEndTime = now + currentMs`; while the tick source is stopped
(the paused state) no delivered tick and no non-reset dispatch changes
`currentMs`; and every dispatch preserves the invariant that the tick
source is active exactly while running. -/
theorem startPause_freezes_currentMs (now : Int) (s : St) :
    (onStartPauseClicked now s).currentMs = s.currentMs
      ∧ (s.isRunning = true →
          (onStartPauseClicked now s).isRunning = false ∧
            (onStartPauseClicked now s).isPaused = true ∧
            (onStartPauseClicked now s).timerActive = false)
      ∧ (s.isRunning = false →
          (onStartPauseClicked now s).targetEndTime = now + s.currentMs ∧
            (onStartPauseClicked now s).isRunning = true ∧
            (onStartPauseClicked now s).timerActive = true)
      ∧ (∀ (fs : String → Bool) (c : Config) (now2 : Int),
          s.timerActive = false → (step fs c (Op.tick now2) s).1 = s)
      ∧ (∀ (fs : String → Bool) (c : Config) (o : Op),
          o ≠ Op.reset → s.timerActive = false →
            (step fs c o s).1.currentMs = s.currentMs)
      ∧ (∀ (fs : String → Bool) (c : Config) (o : Op),
          s.timerActive = s.isRunning →
            (step fs c o s).1.timerActive = (step fs c o s).1.isRunning) := by
  refine ⟨onStartPauseClicked_currentMs now s, ?_, ?_, ?_, ?_, ?_⟩
  · intro h
    simp [onStartPauseClicked, h]
  · intro h
    simp [onStartPauseClicked, h]
  · intro fs c now2 h
    simp [step, h]
  · intro fs c o ho h
    cases o with
    | tick now2 => simp [step, h]
    | startPause now2 => exact clickStartPause_currentMs now2 s
    | reset => exact absurd rfl ho
  · intro fs c o h
    cases o with
    | tick now2 =>
      by_cases ht : s.timerActive
      · simp only [step, ht, if_true]
        rw [onTick_timerActive, onTick_isRunning, h]
      · simpa [step, ht] using h
    | startPause now2 =>
      show (clickStartPause now2 s).timerActive = (clickStartPause now2 s).isRunning
      unfold clickStartPause onStartPauseClicked
      split
      · split <;> rfl
      · exact h
    | reset => rfl

/-- Witness for C3: resuming from the idle initial-like state `st0` sets
`targetEndTime = now + currentMs`. -/
theorem startPause_freezes_currentMs_witness :
    (onStartPauseClicked 0 st0).targetEndTime = 0 + st0.currentMs :=
  ((startPause_freezes_currentMs 0 st0).2.2.1 rfl).1

/-- C10: `resetTimer`, from every state, stops the media player (so no
audio from the previous cycle survives a reset), stops the tick source,
clears the zero latch and the running/paused flags, restores `currentMs`
and `limitMs` to their config-derived values, shows the Start/Pause
button with label "Start", and lands in phase Idle. -/
theorem resetTimer_stops_sound_and_restores (c : Config) (s : St) :
    (resetTimer c s).playerPlaying = false
      ∧ (resetTimer c s).timerActive = false
      ∧ (resetTimer c s).zeroSoundPlayed = false
      ∧ (resetTimer c s).isRunning = false
      ∧ (resetTimer c s).isPaused = false
      ∧ (resetTimer c s).btnText = "Start"
      ∧ (resetTimer c s).btnVisible = true
      ∧ (resetTimer c s).currentMs = (mkInit c).currentMs
      ∧ (resetTimer c s).limitMs = (mkInit c).limitMs
      ∧ phase (resetTimer c s) = Phase.Idle :=
  ⟨rfl, rfl, rfl, rfl, rfl, rfl, rfl, rfl, rfl, rfl⟩

/-- Configuration used for the ended-state scenario: `start = 0:00`,
`limit = 0:10`. -/
def c4cfg : Config :=
  { startMin := 0, startSec := 0, limitMin := 0, limitSec := 10 }

/-- A reachable Ended state: start the zero-length timer at time 0 and
deliver one tick at time 10000, which crosses zero and reaches the
limit. -/
def endedSt : St :=
  (onTick (fun _ => false) c4cfg 10000
    (onStartPauseClicked 0 (mkInit c4cfg))).1

/-- C4 counterexample: the slot `onStartPauseClicked`, invoked in a
reachable Ended state, is not a no-op — it restarts ticking, and the
very next tick fires the limit-reached event a second time in the same
reset cycle. -/
theorem startPause_in_ended_restarts :
    phase endedSt = Phase.Ended
      ∧ onStartPauseClicked 0 endedSt ≠ endedSt
      ∧ (onStartPauseClicked 0 endedSt).isRunning = true
      ∧ (onStartPauseClicked 0 endedSt).timerActive = true
      ∧ Ev.limitReach ∈
          (onTick (fun _ => false) c4cfg 50
            (onStartPauseClicked 0 endedSt)).2 := by
  refine ⟨by decide, by decide, by decide, by decide, by decide⟩

/-- C4 amended: a user click of the Start/Pause button while the engine
is Ended is a no-op, because the limit edge hid the button and a hidden
button emits no clicked signal; the slot itself has no Ended guard, so a
direct invocation would restart ticking from `currentMs = limitMs` and
re-fire the limit event. -/
theorem click_startPause_in_ended_noop (now : Int) (s : St)
    (h : phase s = Phase.Ended) : clickStartPause now s = s := by
  unfold phase at h
  by_cases hr : s.isRunning
  · simp [hr] at h
  · by_cases hp : s.isPaused
    · by_cases hb : s.btnVisible
      · simp [hr, hp, hb] at h
      · unfold clickStartPause
        simp [hb]
    · simp [hr, hp] at h

/-- Witness for C4's amended claim at the concrete Ended state. -/
theorem click_startPause_in_ended_noop_witness :
    clickStartPause 0 endedSt = endedSt :=
  click_startPause_in_ended_noop 0 endedSt (by decide)

/-- C5 counterexample: the config file parses negative integers, and a
negative `limitSec` makes `limitMs` positive after reset — the
invariant `limitMs ≤ 0` does not hold for every parsed configuration. -/
theorem limitMs_positive_for_negative_config :
    (loadConfig ["0", "10", "0", "-5"]).limitSec = -5
      ∧ 0 < (mkInit (loadConfig ["0", "10", "0", "-5"])).limitMs := by
  constructor <;> decide

/-- C5 amended: when the parsed limit fields are non-negative and the
product `(limitMin·60 + limitSec)·1000` fits in a 32-bit int,
`limitMs ≤ 0` holds in the initial state and after every sequence of
dispatches (only reset writes `limitMs`, and it rewrites the same
config-derived value). -/
theorem limitMs_nonpos_of_nonneg_config (fs : String → Bool) (c : Config)
    (ops : List Op) (h1 : 0 ≤ c.limitMin) (h2 : 0 ≤ c.limitSec)
    (h3 : (c.limitMin * 60 + c.limitSec) * 1000 < 2 ^ 31) :
    (runOps fs c ops (mkInit c)).limitMs ≤ 0 := by
  have hv : (mkInit c).limitMs ≤ 0 := by
    show i32mul (i32mul (-1) (i32add (i32mul c.limitMin 60) c.limitSec))
        1000 ≤ 0
    have e1 : i32mul c.limitMin 60 = c.limitMin * 60 := by
      unfold i32mul wrap32; omega
    have e2 : i32add (c.limitMin * 60) c.limitSec =
        c.limitMin * 60 + c.limitSec := by
      unfold i32add wrap32; omega
    have e3 : i32mul (-1) (c.limitMin * 60 + c.limitSec) =
        -(c.limitMin * 60 + c.limitSec) := by
      unfold i32mul wrap32; omega
    have e4 : i32mul (-(c.limitMin * 60 + c.limitSec)) 1000 =
        -((c.limitMin * 60 + c.limitSec) * 1000) := by
      unfold i32mul wrap32; omega
    rw [e1, e2, e3, e4]
    omega
  rw [runOps_limitMs fs c ops (mkInit c) rfl]
  exact hv

/-- Witness for C5's amended claim with the default config and a short
run. -/
theorem limitMs_nonpos_of_nonneg_config_witness :
    (runOps (fun _ => false) {} [Op.startPause 0, Op.tick 7]
        (mkInit {})).limitMs ≤ 0 :=
  limitMs_nonpos_of_nonneg_config (fun _ => false) {}
    [Op.startPause 0, Op.tick 7] (by decide) (by decide) (by decide)

/-- C6: in any reset-free run the zero-crossing sound is requested at
most once; if the latch is already set it is never requested again and
the latch stays set — so the latch goes false → true at most once per
reset cycle. -/
theorem zeroCross_at_most_once_per_cycle (fs : String → Bool) (c : Config)
    (ops : List Op) (s : St) (hno : ∀ o ∈ ops, o ≠ Op.reset) :
    (evRun fs c ops s).count Ev.zeroCross ≤ 1
      ∧ (s.zeroSoundPlayed = true →
          (evRun fs c ops s).count Ev.zeroCross = 0)
      ∧ (s.zeroSoundPlayed = true →
          (runOps fs c ops s).zeroSoundPlayed = true) := by
  have h := evRun_zeroCount fs c ops s hno
  refine ⟨?_, ?_, ?_⟩
  · have hb : zeroPot s ≤ 1 := by unfold zeroPot; split <;> omega
    omega
  · intro hz
    have h0 : zeroPot s = 0 := by unfold zeroPot; simp [hz]
    omega
  · intro hz
    have h0 : zeroPot s = 0 := by unfold zeroPot; simp [hz]
    have hfin : zeroPot (runOps fs c ops s) = 0 := by omega
    exact zeroPot_eq_zero hfin

/-- Witness for C6: a single tick from the fresh state requests the
zero sound at most once. -/
theorem zeroCross_at_most_once_per_cycle_witness :
    (evRun (fun _ => false) {} [Op.tick 0] st0).count Ev.zeroCross ≤ 1 :=
  (zeroCross_at_most_once_per_cycle (fun _ => false) {} [Op.tick 0] st0
    (fun o ho => by
      rw [List.mem_singleton] at ho
      subst ho
      simp)).1

/-- C7: a meaningful line is the physical line with everything from the
first `#` discarded and whitespace trimmed, empty results skipped; the
six fields are positional over the first six meaningful lines; a field
whose text fails base-10 parsing or whose line is missing is 0 (empty
string for paths); and `  15 # minutes` parses to 15. -/
theorem loadConfig_positional_fields :
    (∀ (ls : List String) (v1 v2 v3 v4 v5 v6 : String) (rest : List String),
        meaningfulLines ls = v1 :: v2 :: v3 :: v4 :: v5 :: v6 :: rest →
        loadConfig ls =
          { startMin := toIntQ v1, startSec := toIntQ v2
            limitMin := toIntQ v3, limitSec := toIntQ v4
            soundZeroFile := v5, soundLimitFile := v6 })
      ∧ (∀ ls : List String, meaningfulLines ls = [] →
          loadConfig ls =
            { startMin := 0, startSec := 0, limitMin := 0, limitSec := 0
              soundZeroFile := "", soundLimitFile := "" })
      ∧ cleanLine "  15 # minutes" = "15"
      ∧ toIntQ "15" = 15
      ∧ toIntQ "" = 0
      ∧ toIntQ "abc" = 0
      ∧ loadConfig ["  15 # minutes"] =
          { startMin := 15, startSec := 0, limitMin := 0, limitSec := 0
            soundZeroFile := "", soundLimitFile := "" } := by
  refine ⟨?_, ?_, by decide, by decide, by decide, by decide, by decide⟩
  · intro ls v1 v2 v3 v4 v5 v6 rest hml
    have h1 := readValidLine_head ls
    have t1 := readValidLine_tail ls
    have h2 := readValidLine_head (readValidLine ls).2
    have t2 := readValidLine_tail (readValidLine ls).2
    have h3 := readValidLine_head (readValidLine (readValidLine ls).2).2
    have t3 := readValidLine_tail (readValidLine (readValidLine ls).2).2
    have h4 := readValidLine_head
      (readValidLine (readValidLine (readValidLine ls).2).2).2
    have t4 := readValidLine_tail
      (readValidLine (readValidLine (readValidLine ls).2).2).2
    have h5 := readValidLine_head
      (readValidLine (readValidLine (readValidLine (readValidLine ls).2).2).2).2
    have t5 := readValidLine_tail
      (readValidLine (readValidLine (readValidLine (readValidLine ls).2).2).2).2
    have h6 := readValidLine_head
      (readValidLine (readValidLine (readValidLine (readValidLine
        (readValidLine ls).2).2).2).2).2
    simp only [hml, List.headD_cons, List.tail_cons] at h1 t1
    simp only [t1, List.headD_cons, List.tail_cons] at h2 t2
    simp only [t2, List.headD_cons, List.tail_cons] at h3 t3
    simp only [t3, List.headD_cons, List.tail_cons] at h4 t4
    simp only [t4, List.headD_cons, List.tail_cons] at h5 t5
    simp only [t5, List.headD_cons, List.tail_cons] at h6
    simp [loadConfig, h1, h2, h3, h4, h5, h6]
  · intro ls hml
    have h1 := readValidLine_head ls
    have t1 := readValidLine_tail ls
    have h2 := readValidLine_head (readValidLine ls).2
    have t2 := readValidLine_tail (readValidLine ls).2
    have h3 := readValidLine_head (readValidLine (readValidLine ls).2).2
    have t3 := readValidLine_tail (readValidLine (readValidLine ls).2).2
    have h4 := readValidLine_head
      (readValidLine (readValidLine (readValidLine ls).2).2).2
    have t4 := readValidLine_tail
      (readValidLine (readValidLine (readValidLine ls).2).2).2
    have h5 := readValidLine_head
      (readValidLine (readValidLine (readValidLine (readValidLine ls).2).2).2).2
    have t5 := readValidLine_tail
      (readValidLine (readValidLine (readValidLine (readValidLine ls).2).2).2).2
    have h6 := readValidLine_head
      (readValidLine (readValidLine (readValidLine (readValidLine
        (readValidLine ls).2).2).2).2).2
    simp only [hml, List.headD_nil, List.tail_nil] at h1 t1
    simp only [t1, List.headD_nil, List.tail_nil] at h2 t2
    simp only [t2, List.headD_nil, List.tail_nil] at h3 t3
    simp only [t3, List.headD_nil, List.tail_nil] at h4 t4
    simp only [t4, List.headD_nil, List.tail_nil] at h5 t5
    simp only [t5, List.headD_nil, List.tail_nil] at h6
    have e0 : toIntQ "" = 0 := rfl
    simp [loadConfig, h1, h2, h3, h4, h5, h6, e0]

/-- C8: the recomputed font point size is
`min(⌊0.50·height⌋, ⌊width / 4.5⌋)` clamped below at 20; the sample
sizes 1200×800 and 100×100 give 266 and 22; and the formula is
monotone non-decreasing in both dimensions. -/
theorem fontPointSize_formula :
    (∀ w h : Nat,
        fontPointSize w h =
          max 20 (min (Nat.floor ((h : ℚ) * (1 / 2)))
            (Nat.floor ((w : ℚ) / (9 / 2)))))
      ∧ fontPointSize 1200 800 = 266
      ∧ fontPointSize 100 100 = 22
      ∧ (∀ w w2 hh hh2 : Nat, w ≤ w2 → hh ≤ hh2 →
          fontPointSize w hh ≤ fontPointSize w2 hh2) := by
  have base : ∀ w h : Nat,
      fontPointSize w h = max 20 (min (h / 2) (2 * w / 9)) := by
    intro w h
    unfold fontPointSize
    dsimp only
    rcases lt_or_le (min (h / 2) (2 * w / 9)) 20 with hl | hl
    · rw [if_pos hl, max_eq_left (le_of_lt hl)]
    · rw [if_neg (not_lt.mpr hl), max_eq_right hl]
  have fh : ∀ h : Nat, Nat.floor ((h : ℚ) * (1 / 2)) = h / 2 := by
    intro h
    have e : ((h : ℚ) * (1 / 2)) = (h : ℚ) / ((2 : ℕ) : ℚ) := by
      push_cast; ring
    rw [e, Nat.floor_div_nat, Nat.floor_natCast]
  have fw : ∀ w : Nat, Nat.floor ((w : ℚ) / (9 / 2)) = 2 * w / 9 := by
    intro w
    have e : ((w : ℚ) / (9 / 2)) = ((2 * w : ℕ) : ℚ) / ((9 : ℕ) : ℚ) := by
      push_cast; ring
    rw [e, Nat.floor_div_nat, Nat.floor_natCast]
  refine ⟨?_, by decide, by decide, ?_⟩
  · intro w h
    rw [base, fh, fw]
  · intro w w2 hh hh2 hw hh3
    rw [base, base]
    have d1 : hh / 2 ≤ hh2 / 2 := Nat.div_le_div_right hh3
    have d2 : 2 * w / 9 ≤ 2 * w2 / 9 := Nat.div_le_div_right (by omega)
    exact max_le_max le_rfl (min_le_min d1 d2)

/-- Witness for C8's monotonicity conjunct at concrete sizes. -/
theorem fontPointSize_formula_witness :
    fontPointSize 600 400 ≤ fontPointSize 1200 800 :=
  fontPointSize_formula.2.2.2 600 1200 400 800 (by decide) (by decide)

/-- C9: `resetTimer` computes `currentMs` and `limitMs` in 32-bit `int`
arithmetic, so the equalities `currentMs = 1000·startSeconds` and
`limitMs = −1000·limitSeconds` hold whenever the intermediate products
fit in a 32-bit int, while larger configured values wrap: a start of
3,000,000 seconds yields −1,294,967,296 ms, and the same limit yields a
positive `limitMs`. -/
theorem resetTimer_int32_arith :
    (∀ (c : Config) (s : St),
        (FitsI32 (c.startMin * 60) → FitsI32 (c.startMin * 60 + c.startSec) →
          FitsI32 ((c.startMin * 60 + c.startSec) * 1000) →
          (resetTimer c s).currentMs = (c.startMin * 60 + c.startSec) * 1000)
          ∧ (FitsI32 (c.limitMin * 60) →
              FitsI32 (c.limitMin * 60 + c.limitSec) →
              FitsI32 ((c.limitMin * 60 + c.limitSec) * 1000) →
              (resetTimer c s).limitMs =
                -((c.limitMin * 60 + c.limitSec) * 1000)))
      ∧ (mkInit { startMin := 0, startSec := 3000000 }).currentMs =
          -1294967296
      ∧ (mkInit { limitMin := 0, limitSec := 3000000 }).limitMs =
          1294967296 := by
  refine ⟨?_, by decide, by decide⟩
  intro c s
  constructor
  · intro f1 f2 f3
    obtain ⟨a1, a2⟩ := f1
    obtain ⟨b1, b2⟩ := f2
    obtain ⟨d1, d2⟩ := f3
    show i32mul (i32add (i32mul c.startMin 60) c.startSec) 1000 = _
    have e1 : i32mul c.startMin 60 = c.startMin * 60 := by
      unfold i32mul wrap32; omega
    have e2 : i32add (c.startMin * 60) c.startSec =
        c.startMin * 60 + c.startSec := by
      unfold i32add wrap32; omega
    have e3 : i32mul (c.startMin * 60 + c.startSec) 1000 =
        (c.startMin * 60 + c.startSec) * 1000 := by
      unfold i32mul wrap32; omega
    rw [e1, e2, e3]
  · intro f1 f2 f3
    obtain ⟨a1, a2⟩ := f1
    obtain ⟨b1, b2⟩ := f2
    obtain ⟨d1, d2⟩ := f3
    show i32mul (i32mul (-1) (i32add (i32mul c.limitMin 60) c.limitSec))
        1000 = _
    have e1 : i32mul c.limitMin 60 = c.limitMin * 60 := by
      unfold i32mul wrap32; omega
    have e2 : i32add (c.limitMin * 60) c.limitSec =
        c.limitMin * 60 + c.limitSec := by
      unfold i32add wrap32; omega
    have e3 : i32mul (-1) (c.limitMin * 60 + c.limitSec) =
        -(c.limitMin * 60 + c.limitSec) := by
      unfold i32mul wrap32; omega
    have e4 : i32mul (-(c.limitMin * 60 + c.limitSec)) 1000 =
        -((c.limitMin * 60 + c.limitSec) * 1000) := by
      unfold i32mul wrap32; omega
    rw [e1, e2, e3, e4]

/-- Witness for C9's in-range case at a small concrete config. -/
theorem resetTimer_int32_arith_witness :
    (resetTimer { startMin := 1, startSec := 2, limitMin := 0, limitSec := 3 }
        st0).currentMs = ((1 : Int) * 60 + 2) * 1000 :=
  (resetTimer_int32_arith.1
      { startMin := 1, startSec := 2, limitMin := 0, limitSec := 3 } st0).1
    (by decide) (by decide) (by decide)
